import Mathlib

/-!
Shallow embedding of `src/rules/namingConventionRule.ts` (a tslint naming-convention
rule) and proofs about it.

Modelling conventions:
* JavaScript 32-bit bitwise operators (`&`, `|`, `~`, `<<`) are embedded over `Int`
  via an explicit reduction modulo `2^32` (`toN32` / `ofN32`), because the `Types`
  enum contains the negative value `default = -1`.  Where all operands are known
  small non-negative numbers (the modifier bitmask accumulation) plain `Nat`
  bitwise operators are used, which agree with the 32-bit semantics there.
* A JavaScript enum-object lookup `Enum[name]` is an association-list lookup
  returning `Option`; `undefined` is `none`, and the `ToInt32 undefined = 0`
  coercion used by `|=`/`&` is `Option.getD 0`.
* Compiled regular expressions are abstracted as predicates `String → Bool`; a raw
  filter source is either `.valid test` or `.invalid` (on which `new RegExp` throws).
* `walker.addFailureAtNode` is modelled by returning the list of failure messages
  in emission order.
* The TS field `prefix` is rendered `prefixes` (and symmetrically `suffix` as
  `suffixes`) because `prefix` is reserved in this development.
-/

/-! ## JavaScript 32-bit integer primitives -/

/-- ToUint32: reduce an integer to its unsigned 32-bit representative. -/
def toN32 (i : Int) : Nat := (i % 4294967296).toNat

/-- Reinterpret an unsigned 32-bit value as a signed 32-bit integer (ToInt32 result). -/
def ofN32 (n : Nat) : Int := if n < 2147483648 then (n : Int) else (n : Int) - 4294967296

/-- JS `a & b` on numbers (32-bit signed semantics). -/
def jsAnd (a b : Int) : Int := ofN32 (toN32 a &&& toN32 b)

/-- JS `a | b` on numbers (32-bit signed semantics). -/
def jsOrI (a b : Int) : Int := ofN32 (toN32 a ||| toN32 b)

/-- JS `~a` on numbers (32-bit signed semantics). -/
def jsNot (a : Int) : Int := ofN32 (toN32 a ^^^ 4294967295)

/-- JS `a << n` on numbers (32-bit signed semantics). -/
def jsShl (a : Int) (n : Nat) : Int := ofN32 ((toN32 a <<< n) % 4294967296)

/-- Truthiness of a JS number: anything other than `0` (and `NaN`) is truthy. -/
def jsTruthyInt (i : Int) : Bool := i != 0

/-! ## String primitives mirroring the JS operations used by the rule -/

/-- JS `s[0]`: `undefined` on the empty string. -/
def jsHeadChar (s : String) : Option Char := s.data.head?

/-- JS `s[s.length - 1]`: `undefined` on the empty string. -/
def jsLastChar (s : String) : Option Char := s.data.getLast?

/-- JS `s.length` (character count; identifiers here are ASCII). -/
def jsLength (s : String) : Nat := s.data.length

/-- JS `s.slice(n)` for `n ≥ 0`: drop the first `n` characters. -/
def jsDrop (s : String) (n : Nat) : String := String.mk (s.data.drop n)

/-- JS `s.slice(0, n)` for `n ≥ 0`: keep the first `n` characters. -/
def jsTake (s : String) (n : Nat) : String := String.mk (s.data.take n)

/-- JS `s.startsWith(p)`. -/
def jsStartsWith (s p : String) : Bool := List.isPrefixOf p.data s.data

/-- JS `s.endsWith(p)`. -/
def jsEndsWith (s p : String) : Bool := List.isSuffixOf p.data s.data

/-- JS `s.slice(-n)` for `n ≥ 0`: the last `n` characters (`-0` is `0`, whole string). -/
def jsSliceNeg (s : String) (n : Nat) : String :=
  if n = 0 then s else jsDrop s (jsLength s - n)

/-- JS `s.slice(0, -n)` for `n ≥ 0`: drop the last `n` characters, except that
`-0` is `0` and yields the empty string. -/
def jsSliceZeroNeg (s : String) (n : Nat) : String :=
  if n = 0 then "" else jsTake s (jsLength s - n)

/-- JS `Array#toString` on a string array: elements joined with a comma. -/
def jsArrayToString : List String → String
  | [] => ""
  | [s] => s
  | s :: rest => s ++ "," ++ jsArrayToString rest

/-! ## Failure message fragments (source constants) -/

def FORMAT_FAIL : String := " name must be in "
def LEADING_FAIL : String := " name must not have leading underscore"
def TRAILING_FAIL : String := " name must not have trailing underscore"
def NO_LEADING_FAIL : String := " name must have leading underscore"
def NO_TRAILING_FAIL : String := " name must have trailing underscore"
def REGEX_FAIL : String := " name did not match required regex"
def PREFIX_FAIL : String := " name must start with "
def SUFFIX_FAIL : String := " name must end with "
def PREFIX_FAIL_ARR : String := " name must start with one of "
def SUFFIX_FAIL_ARR : String := " name must end with one of "

def PASCAL_OPTION : String := "PascalCase"
def CAMEL_OPTION : String := "camelCase"
def SNAKE_OPTION : String := "snake_case"
def UPPER_OPTION : String := "UPPER_CASE"

/-! ## The enum objects

`enum Types`, `enum TypeSelector`, `enum Modifiers`, `enum Specifity` from the
source, as name→value association lists (the runtime form a TS enum object takes
for string indexing) plus named numeric constants for the values used directly. -/

/-- `enum Types` (bit flags; `default = -1`). -/
def TypesTable : List (String × Int) :=
  [("default", -1), ("variable", 1), ("function", 2), ("parameter", 4),
   ("member", 8), ("property", 16), ("method", 32), ("type", 64),
   ("class", 128), ("interface", 256), ("typeAlias", 512),
   ("genericTypeParameter", 1024), ("enum", 2048), ("enumMember", 4096)]

def Types_member : Int := 8

/-- `enum TypeSelector` values (composites of `Types` bits). -/
def TypeSelector_variable : Int := 1
def TypeSelector_function : Int := 3
def TypeSelector_parameter : Int := 5
def TypeSelector_property : Int := 24
def TypeSelector_parameterProperty : Int := 29
def TypeSelector_method : Int := 40
def TypeSelector_class : Int := 192
def TypeSelector_interface : Int := 320
def TypeSelector_typeAlias : Int := 576
def TypeSelector_genericTypeParameter : Int := 1088
def TypeSelector_enum : Int := 2112
def TypeSelector_enumMember : Int := 4120

/-- All `TypeSelector` values. -/
def typeSelectorList : List Int :=
  [TypeSelector_variable, TypeSelector_function, TypeSelector_parameter,
   TypeSelector_property, TypeSelector_parameterProperty, TypeSelector_method,
   TypeSelector_class, TypeSelector_interface, TypeSelector_typeAlias,
   TypeSelector_genericTypeParameter, TypeSelector_enum, TypeSelector_enumMember]

/-- Reverse lookup `TypeSelector[value]`, used for the failure-message kind name. -/
def typeSelectorName (t : Int) : String :=
  if t = 1 then "variable" else if t = 3 then "function"
  else if t = 5 then "parameter" else if t = 24 then "property"
  else if t = 29 then "parameterProperty" else if t = 40 then "method"
  else if t = 192 then "class" else if t = 320 then "interface"
  else if t = 576 then "typeAlias" else if t = 1088 then "genericTypeParameter"
  else if t = 2112 then "enum" else if t = 4120 then "enumMember"
  else "undefined"

/-- `enum Modifiers` (bit flags; `readonly` aliases `const`). -/
def ModifiersTable : List (String × Nat) :=
  [("const", 1), ("readonly", 1), ("static", 2), ("public", 4),
   ("protected", 8), ("private", 16), ("global", 32), ("local", 64),
   ("abstract", 128), ("export", 256), ("import", 512), ("rename", 1024)]

def Modifiers_const : Nat := 1
def Modifiers_static : Nat := 2
def Modifiers_public : Nat := 4
def Modifiers_protected : Nat := 8
def Modifiers_private : Nat := 16
def Modifiers_global : Nat := 32
def Modifiers_local : Nat := 64
def Modifiers_abstract : Nat := 128
def Modifiers_export : Nat := 256
def Modifiers_rename : Nat := 1024

/-- `enum Specifity` (weights; kinds occupy the bits from `1 << 8` upward). -/
def SpecifityTable : List (String × Nat) :=
  [("const", 1), ("readonly", 1), ("static", 2), ("global", 2), ("local", 2),
   ("public", 4), ("protected", 4), ("private", 4), ("abstract", 8),
   ("export", 16), ("import", 32), ("rename", 64), ("filter", 128),
   ("default", 256), ("variable", 512), ("function", 768), ("parameter", 1024),
   ("member", 1280), ("property", 1536), ("method", 1536), ("enumMember", 1792),
   ("type", 2048), ("class", 2304), ("interface", 2304), ("typeAlias", 2304),
   ("genericTypeParameter", 2304), ("enum", 2304)]

def Specifity_filter : Nat := 128

/-! ## Case-convention predicates (source functions) -/

/-- `isUppercaseChar`: `char === char.toUpperCase() && char !== char.toLowerCase()`. -/
def isUppercaseChar (c : Char) : Bool := c.toUpper == c && c.toLower != c

/-- Loop body of `hasStrictCamelHumps` for the characters after the first. -/
def humpsLoop : List Char → Bool → Bool
  | [], _ => true
  | ch :: rest, isUpper =>
    if ch = '_' then false
    else if isUpper = isUppercaseChar ch then
      if isUpper then false else humpsLoop rest isUpper
    else humpsLoop rest (!isUpper)

/-- `hasStrictCamelHumps(name, isUpper)`. -/
def hasStrictCamelHumps (name : String) (isUpper : Bool) : Bool :=
  match name.data with
  | [] => true
  | ch :: rest => if ch = '_' then false else humpsLoop rest isUpper

/-- `isPascalCase`. -/
def isPascalCase (name : String) : Bool :=
  match name.data with
  | [] => true
  | c :: _ => c.toUpper == c && hasStrictCamelHumps name true

/-- `isCamelCase`. -/
def isCamelCase (name : String) : Bool :=
  match name.data with
  | [] => true
  | c :: _ => c.toLower == c && hasStrictCamelHumps name false

/-- Loop body of `validateUnderscores` for the characters after the first. -/
def underscoresLoop : List Char → Bool → Bool
  | [], wasUnderscore => !wasUnderscore
  | ch :: rest, wasUnderscore =>
    if ch = '_' then
      if wasUnderscore then false else underscoresLoop rest true
    else underscoresLoop rest false

/-- `validateUnderscores`: no leading, trailing or adjacent underscores. -/
def validateUnderscores (name : String) : Bool :=
  match name.data with
  | [] => true
  | c :: rest => if c = '_' then false else underscoresLoop rest false

/-- JS `name.toLowerCase()` (ASCII-faithful). -/
def jsToLower (s : String) : String := String.mk (s.data.map Char.toLower)

/-- JS `name.toUpperCase()` (ASCII-faithful). -/
def jsToUpper (s : String) : String := String.mk (s.data.map Char.toUpper)

/-- `isSnakeCase`. -/
def isSnakeCase (name : String) : Bool :=
  name == jsToLower name && validateUnderscores name

/-- `isUpperCase`. -/
def isUpperCase (name : String) : Bool :=
  name == jsToUpper name && validateUnderscores name

/-- `matchesFormat`: the TS `switch` returns `undefined` (here `none`) for a
format string that is none of the four options. -/
def matchesFormat (identifier : String) (format : String) : Option Bool :=
  if format = PASCAL_OPTION then some (isPascalCase identifier)
  else if format = CAMEL_OPTION then some (isCamelCase identifier)
  else if format = SNAKE_OPTION then some (isSnakeCase identifier)
  else if format = UPPER_OPTION then some (isUpperCase identifier)
  else none

/-- Truthiness of the JS value `boolean | undefined`. -/
def jsTruthyOB (o : Option Bool) : Bool := o.getD false

/-- `matchesAnyFormat`: first-match loop over the format list. -/
def matchesAnyFormat (identifier : String) (formats : List String) : Bool :=
  formats.any (fun f => jsTruthyOB (matchesFormat identifier f))

/-- JS `l[i]` coerced to a string by `+` (`undefined` prints as "undefined"). -/
def jsIndexS (l : List String) (i : Nat) : String := (l.get? i).getD "undefined"

/-- `formatFormatList`: `formats[0]`, a comma loop up to (excluding) the last
index, then `' or '` and the last element. -/
def formatFormatList (formats : List String) : String :=
  let lastIndex := formats.length - 1
  let result := (List.range' 1 (lastIndex - 1)).foldl
    (fun r i => r ++ ", " ++ jsIndexS formats i) (jsIndexS formats 0)
  result ++ " or " ++ jsIndexS formats lastIndex

/-! ## Raw rule configuration -/

/-- A JS value that is either one string or an array of strings. -/
inductive StrOrStrList where
  | str (s : String)
  | arr (l : List String)
deriving DecidableEq

/-- A raw regex source: either compiles to a test predicate or throws in
`new RegExp`. -/
inductive RegexSrc where
  | valid (test : String → Bool)
  | invalid

/-- One raw rule object (`RuleConfig`); absent keys are `none`.
(`prefixes`/`suffixes` render the TS keys `prefix`/`suffix`.) -/
structure RawConfig where
  type : String
  modifiers : Option StrOrStrList := none
  final : Bool := false
  filter : Option RegexSrc := none
  format : Option StrOrStrList := none
  leadingUnderscore : Option String := none
  trailingUnderscore : Option String := none
  prefixes : Option StrOrStrList := none
  suffixes : Option StrOrStrList := none
  regex : Option (String → Bool) := none

/-- The `IFormat` accumulator used while merging matching rules. -/
structure FormatFields where
  format : Option StrOrStrList := none
  leadingUnderscore : Option String := none
  trailingUnderscore : Option String := none
  prefixes : Option StrOrStrList := none
  suffixes : Option StrOrStrList := none
  regex : Option (String → Bool) := none

/-- The all-`undefined` seed of the `reduce` in `_createChecker`. -/
def emptyFormatFields : FormatFields := {}

/-- `Object.assign(format, rule.getFormat())`: fields present on the rule's raw
config overwrite the accumulator, absent fields leave it unchanged. -/
def assignFormat (acc : FormatFields) (raw : RawConfig) : FormatFields :=
  { format := match raw.format with | some v => some v | none => acc.format
    leadingUnderscore := match raw.leadingUnderscore with
      | some v => some v | none => acc.leadingUnderscore
    trailingUnderscore := match raw.trailingUnderscore with
      | some v => some v | none => acc.trailingUnderscore
    prefixes := match raw.prefixes with | some v => some v | none => acc.prefixes
    suffixes := match raw.suffixes with | some v => some v | none => acc.suffixes
    regex := match raw.regex with | some v => some v | none => acc.regex }

/-- Truthiness of `string | undefined` (the empty string is falsy). -/
def jsTruthyOS : Option String → Bool
  | none => false
  | some s => s != ""

/-- Truthiness of `string | string[] | undefined` (arrays are always truthy). -/
def jsTruthySL : Option StrOrStrList → Bool
  | none => false
  | some (.str s) => s != ""
  | some (.arr _) => true

/-- Truthiness of a compiled-regex-or-undefined value. -/
def jsTruthyRegex : Option (String → Bool) → Bool
  | none => false
  | some _ => true

/-- `parseOptionArray`: a non-array or an array of length `> 1` is returned as
is; a shorter array is collapsed to its first element (`undefined` if empty). -/
def parseOptionArray (option : Option StrOrStrList) : Option StrOrStrList :=
  match option with
  | none => none
  | some (.str s) => some (.str s)
  | some (.arr l) => if l.length > 1 then some (.arr l) else l.head?.map .str

/-! ## NameChecker -/

/-- The compiled validator for one merged format contract (`class NameChecker`). -/
structure NameChecker where
  type : Int
  format : Option StrOrStrList
  leadingUnderscore : Option String
  trailingUnderscore : Option String
  prefixes : Option StrOrStrList
  suffixes : Option StrOrStrList
  regex : Option (String → Bool)

instance : Inhabited NameChecker := ⟨⟨0, none, none, none, none, none, none⟩⟩

/-- The `NameChecker` constructor. -/
def NameChecker.create (type : Int) (format : FormatFields) : NameChecker :=
  { type := type
    leadingUnderscore := format.leadingUnderscore
    trailingUnderscore := format.trailingUnderscore
    format := parseOptionArray format.format
    prefixes := parseOptionArray format.prefixes
    suffixes := parseOptionArray format.suffixes
    regex := format.regex }

/-- `_failMessage`: kind name followed by the message fragment. -/
def NameChecker.failMessage (c : NameChecker) (message : String) : String :=
  typeSelectorName c.type ++ message

/-- Leading-underscore block of `check`: returns the (possibly stripped)
identifier and the failures it emits. -/
def checkLeadingStage (c : NameChecker) (identifier : String) : String × List String :=
  match c.leadingUnderscore with
  | none => (identifier, [])
  | some policy =>
    if policy = "" then (identifier, [])
    else if jsHeadChar identifier = some '_' then
      (jsDrop identifier 1,
       if policy = "forbid" then [c.failMessage LEADING_FAIL] else [])
    else if policy = "require" then (identifier, [c.failMessage NO_LEADING_FAIL])
    else (identifier, [])

/-- Trailing-underscore block of `check`. -/
def checkTrailingStage (c : NameChecker) (identifier : String) : String × List String :=
  match c.trailingUnderscore with
  | none => (identifier, [])
  | some policy =>
    if policy = "" then (identifier, [])
    else if jsLastChar identifier = some '_' then
      (jsSliceZeroNeg identifier 1,
       if policy = "forbid" then [c.failMessage TRAILING_FAIL] else [])
    else if policy = "require" then (identifier, [c.failMessage NO_TRAILING_FAIL])
    else (identifier, [])

/-- `_checkPrefixes`: strip the first matching option, else report them all
(JS `Array#toString` joins with a comma). -/
def NameChecker.checkPrefixes (c : NameChecker) (identifier : String)
    (ps : List String) : String × List String :=
  match ps.find? (fun p => jsStartsWith identifier p) with
  | some p => (jsDrop identifier (jsLength p), [])
  | none => (identifier, [c.failMessage (PREFIX_FAIL_ARR ++ jsArrayToString ps)])

/-- `_checkSuffixes`. NOTE: on a match the source computes
`identifier.slice(-suffix.length)` — the last `suffix.length` characters, i.e.
the suffix itself — not `slice(0, -suffix.length)` as the prefix case does. -/
def NameChecker.checkSuffixes (c : NameChecker) (identifier : String)
    (ss : List String) : String × List String :=
  match ss.find? (fun s => jsEndsWith identifier s) with
  | some s => (jsSliceNeg identifier (jsLength s), [])
  | none => (identifier, [c.failMessage (SUFFIX_FAIL_ARR ++ jsArrayToString ss)])

/-- Prefix block of `check`. -/
def checkPrefixStage (c : NameChecker) (identifier : String) : String × List String :=
  match c.prefixes with
  | none => (identifier, [])
  | some (.arr l) => c.checkPrefixes identifier l
  | some (.str s) =>
    if s = "" then (identifier, [])
    else if jsStartsWith identifier s then (jsDrop identifier (jsLength s), [])
    else (identifier, [c.failMessage (PREFIX_FAIL ++ s)])

/-- Suffix block of `check`. -/
def checkSuffixStage (c : NameChecker) (identifier : String) : String × List String :=
  match c.suffixes with
  | none => (identifier, [])
  | some (.arr l) => c.checkSuffixes identifier l
  | some (.str s) =>
    if s = "" then (identifier, [])
    else if jsEndsWith identifier s then (jsSliceZeroNeg identifier (jsLength s), [])
    else (identifier, [c.failMessage (SUFFIX_FAIL ++ s)])

/-- Case-format block of `check` (runs on the fully stripped identifier). -/
def checkFormatStage (c : NameChecker) (identifier : String) : List String :=
  match c.format with
  | none => []
  | some (.arr l) =>
    if !matchesAnyFormat identifier l then
      [c.failMessage (FORMAT_FAIL ++ formatFormatList l)]
    else []
  | some (.str f) =>
    if f = "" then []
    else if !jsTruthyOB (matchesFormat identifier f) then
      [c.failMessage (FORMAT_FAIL ++ f)]
    else []

/-- `NameChecker.check`: all stages in source order; failures accumulate, the
identifier is progressively stripped. -/
def NameChecker.check (c : NameChecker) (name : String) : List String :=
  let regexFails :=
    match c.regex with
    | some test => if !test name then [c.failMessage REGEX_FAIL] else []
    | none => []
  let s1 := checkLeadingStage c name
  let s2 := checkTrailingStage c s1.1
  let s3 := checkPrefixStage c s2.1
  let s4 := checkSuffixStage c s3.1
  regexFails ++ s1.2 ++ s2.2 ++ s3.2 ++ s4.2 ++ checkFormatStage c s4.1

/-- The identifier value on which the case-format block of `check` runs. -/
def preFormatIdentifier (c : NameChecker) (name : String) : String :=
  (checkSuffixStage c
    (checkPrefixStage c
      (checkTrailingStage c
        (checkLeadingStage c name).1).1).1).1

/-! ## NormalizedConfig (rule normalizer and matcher) -/

/-- `class NormalizedConfig` fields. `type` and `modifiers` are `Option`s
because an unrecognized name makes the enum lookup yield `undefined`. -/
structure NormalizedConfig where
  type : Option Int
  filter : Option (String → Bool)
  format : RawConfig
  modifiers : Option Nat
  specifity : Option Nat
  final : Bool

instance : Inhabited NormalizedConfig :=
  ⟨⟨none, none, { type := "" }, none, none, false⟩⟩

/-- The modifiers block of the `NormalizedConfig` constructor: starting from
`_modifiers = 0` and `_specifity = Specifity[raw.type]` (`spec0`), `|=` each
named modifier's `Modifiers`/`Specifity` value (`x |= undefined` coerces the
`undefined` to `0`); a single non-array modifier name is *assigned* to
`_modifiers` (possibly `undefined`).  Returns `(_modifiers, _specifity)`. -/
def normalizeModifiers (spec0 : Option Nat) :
    Option StrOrStrList → Option Nat × Option Nat
  | none => (some 0, spec0)
  | some (.str m) =>
    (ModifiersTable.lookup m,
     some (spec0.getD 0 ||| (SpecifityTable.lookup m).getD 0))
  | some (.arr l) =>
    l.foldl
      (fun acc m =>
        (some (acc.1.getD 0 ||| (ModifiersTable.lookup m).getD 0),
         some (acc.2.getD 0 ||| (SpecifityTable.lookup m).getD 0)))
      (some 0, spec0)

/-- The `NormalizedConfig` constructor. An invalid filter regex source makes
`new RegExp` throw (modelled as `Except.error`); everything else — including
unrecognized kind or modifier names — constructs successfully. -/
def NormalizedConfig.create (raw : RawConfig) : Except String NormalizedConfig :=
  let type0 := TypesTable.lookup raw.type
  let spec0 : Option Nat := SpecifityTable.lookup raw.type
  let modSpec : Option Nat × Option Nat := normalizeModifiers spec0 raw.modifiers
  match raw.filter with
  | some .invalid => .error "SyntaxError: invalid regular expression"
  | some (.valid test) =>
    .ok { type := type0, final := raw.final, modifiers := modSpec.1,
          specifity := some (modSpec.2.getD 0 ||| Specifity_filter),
          filter := some test, format := raw }
  | none =>
    .ok { type := type0, final := raw.final, modifiers := modSpec.1,
          specifity := modSpec.2, filter := none, format := raw }

/-- `NormalizedConfig.matches`: `(matched, filterWasConsulted)`. -/
def NormalizedConfig.matches (cfg : NormalizedConfig) (type : Int)
    (modifiers : Nat) (name : String) : Bool × Bool :=
  if cfg.final && decide (type > jsShl (cfg.type.getD 0) 1) then (false, false)
  else if jsAnd (cfg.type.getD 0) type = 0
       ∨ jsAnd (Int.ofNat (cfg.modifiers.getD 0)) (jsNot (Int.ofNat modifiers)) ≠ 0 then
    (false, false)
  else
    match cfg.filter with
    | none => (true, false)
    | some test => (test name, true)

/-- Stable insertion used to model `Array#sort` (ascending by `_specifity`;
the ECMAScript sort is stable, so equal keys keep declaration order). -/
def orderedInsert (r : NormalizedConfig) : List NormalizedConfig → List NormalizedConfig
  | [] => [r]
  | x :: xs =>
    if r.specifity.getD 0 ≤ x.specifity.getD 0 then r :: x :: xs
    else x :: orderedInsert r xs

/-- `NormalizedConfig.sort` applied to a whole list (stable, ascending). -/
def sortRules : List NormalizedConfig → List NormalizedConfig
  | [] => []
  | x :: xs => orderedInsert x (sortRules xs)

/-- `Rule.apply`'s construction of the walker options:
`ruleArguments.map((rule) => new NormalizedConfig(rule)).sort(NormalizedConfig.sort)`. -/
def Rule.apply (ruleArguments : List RawConfig) : Except String (List NormalizedConfig) := do
  let configs ← ruleArguments.mapM NormalizedConfig.create
  pure (sortRules configs)

/-! ## Resolution engine (IdentifierNameWalker) -/

/-- The `reduce` of `_createChecker`: merge every matching rule's format fields
in (already sorted) order; record `hasFilter` only when a rule *matched* with
its filter consulted (`if (!matches) return format;` comes first in the source). -/
def resolveConfig (options : List NormalizedConfig) (type : Int) (modifiers : Nat)
    (name : String) : FormatFields × Bool :=
  options.foldl
    (fun acc rule =>
      let m := rule.matches type modifiers name
      if !m.1 then acc
      else (assignFormat acc.1 rule.format, acc.2 || m.2))
    (emptyFormatFields, false)

/-- `_createChecker`: no populated field means no checker (`null`). -/
def createChecker (options : List NormalizedConfig) (type : Int) (modifiers : Nat)
    (name : String) : Option NameChecker × Bool :=
  let (config, hasFilter) := resolveConfig options type modifiers name
  if !jsTruthyOS config.leadingUnderscore
     && !jsTruthyOS config.trailingUnderscore
     && !jsTruthySL config.format
     && !jsTruthySL config.prefixes
     && !jsTruthyRegex config.regex
     && !jsTruthySL config.suffixes then
    (none, hasFilter)
  else (some (NameChecker.create type config), hasFilter)

/-- The walker's per-walk cache `Map<string, NameChecker | null>`, keyed by
the string `type + "," + modifiers` — injective in `(type, modifiers)`. -/
abbrev Cache := List ((Int × Nat) × Option NameChecker)

/-- `Map#get`: `none` when the key is absent, `some cached` otherwise. -/
def cacheLookup (cache : Cache) (key : Int × Nat) : Option (Option NameChecker) :=
  (cache.find? (fun e => e.1 = key)).map (fun e => e.2)

/-- `_getMatchingChecker`: consult the cache; on a miss build a checker and
cache it unless `hasFilter` was set. -/
def getMatchingChecker (options : List NormalizedConfig) (cache : Cache)
    (type : Int) (modifiers : Nat) (name : String) : Option NameChecker × Cache :=
  let key := (type, modifiers)
  match cacheLookup cache key with
  | some cached => (cached, cache)
  | none =>
    let (checker, hasFilter) := createChecker options type modifiers name
    if !hasFilter then (checker, (key, checker) :: cache)
    else (checker, cache)

/-- `_checkName`: run the matching checker (if any) on the identifier,
returning its failures and the updated cache. -/
def checkName (options : List NormalizedConfig) (cache : Cache) (type : Int)
    (modifiers : Nat) (name : String) : List String × Cache :=
  let (matchingChecker, cache') := getMatchingChecker options cache type modifiers name
  match matchingChecker with
  | some checker => (checker.check name, cache')
  | none => ([], cache')

/-! ## Declaration classifier (`_getModifiers`) -/

/-- The syntactic modifier keywords `_getModifiers` inspects. -/
inductive SyntaxModifierKind where
  | privateKeyword
  | protectedKeyword
  | readonlyKeyword
  | staticKeyword
  | constKeyword
  | exportKeyword
  | abstractKeyword
deriving DecidableEq

/-- `utils.hasModifier`. -/
def hasModifier (mods : List SyntaxModifierKind) (k : SyntaxModifierKind) : Bool :=
  mods.contains k

/-- Body of the `node.modifiers !== undefined` branch of `_getModifiers`,
parameterized by the outcome of each `hasModifier` test.  Note the source
guard is `if (type | Types.member)` — a bitwise OR, truthy for *every*
selector — so the visibility block is not limited to member-like kinds. -/
def modifierBitsOf (hasPriv hasProt hasRO hasStat hasConst hasExp hasAbs : Bool)
    (ty : Int) : Nat :=
  let v0 :=
    if jsTruthyInt (jsOrI ty Types_member) then
      let vis := if hasPriv then Modifiers_private
                 else if hasProt then Modifiers_protected
                 else Modifiers_public
      let v1 := if hasRO then vis ||| Modifiers_const else vis
      if hasStat then v1 ||| Modifiers_static else v1
    else 0
  let v2 := if hasConst then v0 ||| Modifiers_const else v0
  let v3 := if hasExp then v2 ||| Modifiers_export else v2
  if hasAbs then v3 ||| Modifiers_abstract else v3

/-- Scope block of `_getModifiers`: every selector except `property` and
`method` receives `local` (depth ≠ 0) or `global` (depth 0). -/
def scopeBitsOf (ty : Int) (depthNonZero : Bool) (m : Nat) : Nat :=
  if ty ≠ TypeSelector_property ∧ ty ≠ TypeSelector_method then
    m ||| (if depthNonZero then Modifiers_local else Modifiers_global)
  else m

/-- `_getModifiers(node, type)` with the node's modifier-keyword list and the
walker depth made explicit. -/
def getModifiers (nodeModifiers : Option (List SyntaxModifierKind)) (ty : Int)
    (depth : Nat) : Nat :=
  let m :=
    match nodeModifiers with
    | none => 0
    | some mods =>
      modifierBitsOf
        (hasModifier mods .privateKeyword)
        (hasModifier mods .protectedKeyword)
        (hasModifier mods .readonlyKeyword)
        (hasModifier mods .staticKeyword)
        (hasModifier mods .constKeyword)
        (hasModifier mods .exportKeyword)
        (hasModifier mods .abstractKeyword) ty
  scopeBitsOf ty (decide (depth ≠ 0)) m

/-- `_checkVariableDeclarationList`: add `const` for a const declaration list,
then check each declared variable (second component: the binding is a
destructuring rename, adding `Modifiers.rename`). -/
def checkVariableDeclarationList (options : List NormalizedConfig) (cache : Cache)
    (listIsConst : Bool) (modifiers0 : Nat) (declarations : List (String × Bool)) :
    List String × Cache :=
  let modifiers := if listIsConst then modifiers0 ||| Modifiers_const else modifiers0
  declarations.foldl
    (fun acc d =>
      let (fails, cache') :=
        checkName options acc.2 TypeSelector_variable
          (modifiers ||| (if d.2 then Modifiers_rename else 0)) d.1
      (acc.1 ++ fails, cache'))
    ([], cache)

/-! ## Auxiliary vocabulary used by the specificity analysis -/

/-- The kind names (the keys of `Types`). -/
def kindNamesList : List String :=
  ["default", "variable", "function", "parameter", "member", "property",
   "method", "type", "class", "interface", "typeAlias",
   "genericTypeParameter", "enum", "enumMember"]

/-- The kind specificity weights (`Specifity` values of kind names). -/
def kindWeightsList : List Nat :=
  [256, 512, 768, 1024, 1280, 1536, 1792, 2048, 2304]

/-- The modifier names (the keys of `Modifiers`). -/
def modifierNamesList : List String :=
  ["const", "readonly", "static", "public", "protected", "private",
   "global", "local", "abstract", "export", "import", "rename"]

/-- A `modifiers` entry that names only recognized modifiers — what the TS
type `Modifier | Modifier[]` guarantees statically. -/
def validModifierNames : Option StrOrStrList → Bool
  | none => true
  | some (.str m) => modifierNamesList.contains m
  | some (.arr l) => l.all (fun m => modifierNamesList.contains m)

/-- A raw config whose `modifiers` entry (if any) names only recognized
modifiers. -/
def validModifiers (raw : RawConfig) : Bool := validModifierNames raw.modifiers

/-! ## Concrete configurations for the claims -/

/-- C1 scenario: a plain camelCase rule plus a filtered UPPER_CASE rule for
identifiers starting with "special". -/
def rulesC1 : List NormalizedConfig :=
  match Rule.apply
    [ { type := "variable", format := some (.str "camelCase") },
      { type := "variable",
        filter := some (.valid (fun n => jsStartsWith n "special")),
        format := some (.str "UPPER_CASE") } ] with
  | .ok l => l
  | .error _ => []

/-- The cache state after checking a variable named "foo" (whose name fails
the filter) with the C1 rules. -/
def cacheC1 : Cache := (checkName rulesC1 [] TypeSelector_variable 33 "foo").2

/-- C2 scenario: a suffix set of two options plus a camelCase format. -/
def rulesC2 : List NormalizedConfig :=
  match Rule.apply
    [ { type := "variable", suffixes := some (.arr ["Bar", "Baz"]),
        format := some (.str "camelCase") } ] with
  | .ok l => l
  | .error _ => []

/-- The checker the C2 rules resolve to for a variable. -/
def checkerC2 : NameChecker :=
  match (createChecker rulesC2 TypeSelector_variable 33 "myFooBar").1 with
  | some c => c
  | none => default

/-- C4 failing input: a rule whose `type` is not a recognized kind name. -/
def rawBogusKind : RawConfig := { type := "bogus", format := some (.str "camelCase") }

/-- The matcher the C4 failing input constructs (construction succeeds). -/
def bogusRule : NormalizedConfig :=
  match NormalizedConfig.create rawBogusKind with
  | .ok n => n
  | .error _ => default

/-- C5 scenario: generic camelCase variables plus const UPPER_CASE variables. -/
def rulesC5 : List NormalizedConfig :=
  match Rule.apply
    [ { type := "variable", format := some (.str "camelCase") },
      { type := "variable", modifiers := some (.str "const"),
        format := some (.str "UPPER_CASE") } ] with
  | .ok l => l
  | .error _ => []

/-- C6 witness rules: two equal-specificity variable rules, the later one
asking PascalCase. -/
def ruleC6a : NormalizedConfig :=
  match NormalizedConfig.create { type := "variable", format := some (.str "camelCase") } with
  | .ok n => n
  | .error _ => default

def ruleC6b : NormalizedConfig :=
  match NormalizedConfig.create { type := "variable", format := some (.str "PascalCase") } with
  | .ok n => n
  | .error _ => default

/-- C7 witness rules: a bare class rule versus a variable rule loaded with
every modifier weight and a filter. -/
def rawC7a : RawConfig := { type := "class" }

def rawC7b : RawConfig :=
  { type := "variable",
    modifiers := some (.arr ["const", "static", "private", "abstract",
                             "export", "import", "rename"]),
    filter := some (.valid (fun _ => true)) }

def ruleC7a : NormalizedConfig :=
  match NormalizedConfig.create rawC7a with
  | .ok n => n
  | .error _ => default

def ruleC7b : NormalizedConfig :=
  match NormalizedConfig.create rawC7b with
  | .ok n => n
  | .error _ => default

/-- C9 scenario: leading and trailing underscores allowed, camelCase format. -/
def rulesC9 : List NormalizedConfig :=
  match Rule.apply
    [ { type := "variable", leadingUnderscore := some "allow",
        trailingUnderscore := some "allow", format := some (.str "camelCase") } ] with
  | .ok l => l
  | .error _ => []

/-- The checker the C9 rules resolve to for a variable. -/
def checkerC9 : NameChecker :=
  match (createChecker rulesC9 TypeSelector_variable 33 "__foo__").1 with
  | some c => c
  | none => default

/-- C10 counterexample scenario: the merged contract's format is the empty
string (not one of the four recognized names) and a regex keeps the checker
alive. -/
def rulesC10 : List NormalizedConfig :=
  match Rule.apply
    [ { type := "variable", format := some (.str ""),
        regex := some (fun _ => true) } ] with
  | .ok l => l
  | .error _ => []

/-- C10 witness checker: a contract whose format is an unrecognized non-empty
string. -/
def checkerC10W : NameChecker :=
  { type := TypeSelector_variable, format := some (.str "strange-case"),
    leadingUnderscore := none, trailingUnderscore := none,
    prefixes := none, suffixes := none, regex := none }

/-! ## Claim theorems -/

/-- C1: the memoized lookup is NOT violation-equivalent to a fresh resolution.
After resolving a variable named "foo" — during which the second rule's filter
was consulted and did not match — the checker is cached anyway (the source
records `hasFilter` only when a filter-bearing rule *matched*).  A later
variable with the same (kind, modifiers) named "specialValue" then receives
the cached camelCase-only checker and no violation, while an uncached fresh
resolution applies the filtered rule and demands UPPER_CASE. -/
theorem C1_failed_filter_consultation_is_cached :
  (checkName rulesC1 cacheC1 TypeSelector_variable 33 "specialValue").1 = []
  ∧ (match (createChecker rulesC1 TypeSelector_variable 33 "specialValue").1 with
     | some c => c.check "specialValue"
     | none => []) = ["variable name must be in UPPER_CASE"]
  ∧ (cacheLookup cacheC1 (TypeSelector_variable, 33)).isSome = true :=
  ⟨by decide, by decide, by decide⟩

/-- C2: with the suffix set ["Bar", "Baz"] and a camelCase format, checking
"myFooBar" does not strip the matched suffix: `_checkSuffixes` computes
`identifier.slice(-suffix.length)` — the suffix itself — so the case check
runs on "Bar" (not "myFoo") and reports a camelCase violation, although
"myFoo" is camelCase-valid. -/
theorem C2_suffix_set_not_stripped :
  (createChecker rulesC2 TypeSelector_variable 33 "myFooBar").1 = some checkerC2
  ∧ preFormatIdentifier checkerC2 "myFooBar" = "Bar"
  ∧ checkerC2.check "myFooBar" = ["variable name must be in camelCase"]
  ∧ jsTruthyOB (matchesFormat "myFoo" "camelCase") = true :=
  ⟨by rfl, by decide, by decide, by decide⟩

/-- C5: the end-to-end scenario of the two variable rules: a top-level const
`myValue` is flagged UPPER_CASE, a top-level const `MY_VALUE` passes, a local
non-const `myValue` passes, and a local non-const `My_Value` is flagged
camelCase. -/
theorem C5_end_to_end_scenario :
  (checkVariableDeclarationList rulesC5 [] true
    (getModifiers none TypeSelector_variable 0) [("myValue", false)]).1
    = ["variable name must be in UPPER_CASE"]
  ∧ (checkVariableDeclarationList rulesC5 [] true
    (getModifiers none TypeSelector_variable 0) [("MY_VALUE", false)]).1 = []
  ∧ (checkVariableDeclarationList rulesC5 [] false
    (getModifiers none TypeSelector_variable 1) [("myValue", false)]).1 = []
  ∧ (checkVariableDeclarationList rulesC5 [] false
    (getModifiers none TypeSelector_variable 1) [("My_Value", false)]).1
    = ["variable name must be in camelCase"] :=
  ⟨by decide, by decide, by decide, by decide⟩

/-- C8: the case-convention boundary verdicts: "" is PascalCase- and
camelCase-valid; "A" is PascalCase-valid and camelCase-invalid; "aB" is
camelCase-valid; "ABC" is invalid for both; "a_b" is snake_case-valid;
"a__b", "_a" and "a_" are snake_case-invalid. -/
theorem C8_case_convention_boundaries :
  isPascalCase "" = true ∧ isCamelCase "" = true
  ∧ isPascalCase "A" = true ∧ isCamelCase "A" = false
  ∧ isCamelCase "aB" = true
  ∧ isPascalCase "ABC" = false ∧ isCamelCase "ABC" = false
  ∧ isSnakeCase "a_b" = true ∧ isSnakeCase "a__b" = false
  ∧ isSnakeCase "_a" = false ∧ isSnakeCase "a_" = false := by
  decide

/-- C9: with leadingUnderscore=allow, trailingUnderscore=allow and
format=camelCase, checking "__foo__" strips exactly one underscore per side:
the case check runs on "_foo_" and its verdict is the only reported
violation. -/
theorem C9_one_underscore_layer_stripped :
  preFormatIdentifier checkerC9 "__foo__" = "_foo_"
  ∧ checkerC9.check "__foo__" = checkFormatStage checkerC9 "_foo_"
  ∧ checkerC9.check "__foo__" = ["variable name must be in camelCase"] :=
  ⟨by decide, by decide, by decide⟩

/-- C3 counterexample: an exported top-level class — a kind the claim calls
non-member-like and so bars from visibility bits — receives the `public`
modifier bit, because the source guard `if (type | Types.member)` is a
bitwise OR that is truthy for every selector. -/
theorem C3_counterexample_exported_class_is_public :
  ¬(getModifiers (some [SyntaxModifierKind.exportKeyword]) TypeSelector_class 0 &&& 28 = 0) := by
  decide

/-- C10 counterexample: a merged contract whose case format is the empty
string — a string other than the four recognized names — yields a live
checker (kept alive by a regex) that reports NO format violation for "x",
because `if (this._format)` is falsy for the empty string and the format
check is skipped entirely. -/
theorem C10_counterexample_empty_format_not_reported :
  ((createChecker rulesC10 TypeSelector_variable 33 "x").1).isSome = true
  ∧ (checkName rulesC10 [] TypeSelector_variable 33 "x").1 = [] :=
  ⟨by decide, by decide⟩

/-! ## Supporting lemmas -/

/-- JS `0 & b` is `0`. -/
theorem jsAnd_zero_left (b : Int) : jsAnd 0 b = 0 := by
  simp [jsAnd, toN32, ofN32]

/-- C4: normalizing a rule whose `type` is not a recognized kind name does NOT
fail at construction time: `Types[raw.type]` is `undefined`, construction
succeeds, and the resulting matcher's `(undefined & type) === 0` test silently
matches no declaration whatsoever.  Only an invalid filter regex source aborts
construction (`new RegExp` throws). -/
theorem C4_malformed_config_not_rejected_at_construction :
  NormalizedConfig.create rawBogusKind = .ok bogusRule
  ∧ (∀ (S : Int) (M : Nat) (N : String), bogusRule.matches S M N = (false, false))
  ∧ (NormalizedConfig.create { type := "variable", filter := some .invalid }).isOk = false := by
  refine ⟨rfl, ?_, by decide⟩
  intro S M N
  unfold NormalizedConfig.matches
  rw [show bogusRule.final = false from rfl, show bogusRule.type = none from rfl]
  simp [jsAnd_zero_left]

set_option maxHeartbeats 1000000 in
/-- Exhaustive check over the finitely many branch outcomes of
`_getModifiers`: the visibility, const/static/export/abstract and scope bits
it can produce, for every `TypeSelector` value. -/
theorem classifierBitsKey :
  ∀ (b1 b2 b3 b4 b5 b6 b7 dz : Bool), ∀ t ∈ typeSelectorList,
    (scopeBitsOf t dz (modifierBitsOf b1 b2 b3 b4 b5 b6 b7 t) &&& 28
      ∈ [Modifiers_public, Modifiers_protected, Modifiers_private])
    ∧ (scopeBitsOf t dz 0 &&& 28 = 0)
    ∧ ((t = TypeSelector_property ∨ t = TypeSelector_method) →
        scopeBitsOf t dz (modifierBitsOf b1 b2 b3 b4 b5 b6 b7 t) &&& 96 = 0
        ∧ scopeBitsOf t dz 0 &&& 96 = 0)
    ∧ (¬(t = TypeSelector_property ∨ t = TypeSelector_method) →
        scopeBitsOf t dz (modifierBitsOf b1 b2 b3 b4 b5 b6 b7 t) &&& 96
          ∈ [Modifiers_global, Modifiers_local]
        ∧ scopeBitsOf t dz 0 &&& 96 ∈ [Modifiers_global, Modifiers_local]) := by
  decide

/-- C3 (amended): what `_getModifiers` actually guarantees.  A declaration
with at least one syntactic modifier token receives exactly one of
{public, protected, private} — regardless of kind, member-like or not — and a
declaration with no modifier tokens receives none of them.  Every kind other
than `property` and `method` (including parameter properties) receives
exactly one of {global, local}; `property` and `method` receive neither. -/
theorem C3_amended_modifier_bit_invariants :
  ∀ (mods : Option (List SyntaxModifierKind)) (ty : Int) (depth : Nat),
    ty ∈ typeSelectorList →
    (mods.isSome = true →
       getModifiers mods ty depth &&& 28
         ∈ [Modifiers_public, Modifiers_protected, Modifiers_private])
    ∧ (mods.isSome = false → getModifiers mods ty depth &&& 28 = 0)
    ∧ ((ty = TypeSelector_property ∨ ty = TypeSelector_method) →
       getModifiers mods ty depth &&& 96 = 0)
    ∧ (¬(ty = TypeSelector_property ∨ ty = TypeSelector_method) →
       getModifiers mods ty depth &&& 96 ∈ [Modifiers_global, Modifiers_local]) := by
  intro mods ty depth hty
  cases mods with
  | none =>
    have h := classifierBitsKey true true true true true true true (decide (depth ≠ 0)) ty hty
    exact ⟨by intro hs; simp at hs, fun _ => h.2.1,
           fun hp => (h.2.2.1 hp).2, fun hp => (h.2.2.2 hp).2⟩
  | some l =>
    have h := classifierBitsKey (hasModifier l .privateKeyword)
      (hasModifier l .protectedKeyword) (hasModifier l .readonlyKeyword)
      (hasModifier l .staticKeyword) (hasModifier l .constKeyword)
      (hasModifier l .exportKeyword) (hasModifier l .abstractKeyword)
      (decide (depth ≠ 0)) ty hty
    exact ⟨fun _ => h.1, by intro hs; simp at hs,
           fun hp => (h.2.2.1 hp).1, fun hp => (h.2.2.2 hp).1⟩

/-- C3 witness: a private property at depth 1 carries exactly one visibility
bit. -/
theorem C3_amended_witness :
  getModifiers (some [SyntaxModifierKind.privateKeyword]) TypeSelector_property 1 &&& 28
    ∈ [Modifiers_public, Modifiers_protected, Modifiers_private] :=
  (C3_amended_modifier_bit_invariants (some [SyntaxModifierKind.privateKeyword])
    TypeSelector_property 1 (by decide)).1 rfl

/-- C6: for two rules of equal specificity score, the stable sort keeps
declaration order, so the later-declared rule is merged last and its populated
`format` field wins in the resolved contract. -/
theorem C6_equal_specifity_later_rule_wins :
  ∀ (a b : NormalizedConfig) (S : Int) (M : Nat) (N : String) (f : StrOrStrList),
    a.specifity = b.specifity →
    (b.matches S M N).1 = true →
    b.format.format = some f →
    sortRules [a, b] = [a, b]
    ∧ (resolveConfig (sortRules [a, b]) S M N).1.format = some f := by
  intro a b S M N f hspec hb hf
  have hsort : sortRules [a, b] = [a, b] := by
    simp [sortRules, orderedInsert, hspec]
  refine ⟨hsort, ?_⟩
  rw [hsort]
  simp only [resolveConfig, List.foldl]
  cases hma : (a.matches S M N).1 <;>
    simp [hma, hb, assignFormat, hf]

/-- C6 witness: two equal-specificity variable rules; the later one's
PascalCase format wins. -/
theorem C6_equal_specifity_witness :
  sortRules [ruleC6a, ruleC6b] = [ruleC6a, ruleC6b]
  ∧ (resolveConfig (sortRules [ruleC6a, ruleC6b]) TypeSelector_variable 32 "x").1.format
      = some (.str "PascalCase") :=
  C6_equal_specifity_later_rule_wins ruleC6a ruleC6b TypeSelector_variable 32 "x"
    (.str "PascalCase") rfl (by decide) rfl

/-- Every recognized modifier name has a `Specifity` weight below `256`. -/
theorem modSpecBound : ∀ m ∈ modifierNamesList, (SpecifityTable.lookup m).getD 0 < 256 := by
  decide

/-- The OR of two values below `256` stays below `256`. -/
theorem orLt256 {x y : Nat} (hx : x < 256) (hy : y < 256) : x ||| y < 256 := by
  have hx' : x < 2 ^ 8 := hx
  have hy' : y < 2 ^ 8 := hy
  have h := Nat.or_lt_two_pow hx' hy'
  exact h

/-- The modifier fold of the constructor only ORs sub-`256` weights into the
specificity accumulator. -/
theorem foldModSpecShape :
    ∀ (l : List String), (∀ x ∈ l, modifierNamesList.contains x = true) →
    ∀ (a : Option Nat) (w macc : Nat), macc < 256 →
    ∃ m', m' < 256 ∧
      (l.foldl
        (fun acc mn =>
          (some (acc.1.getD 0 ||| (ModifiersTable.lookup mn).getD 0),
           some (acc.2.getD 0 ||| (SpecifityTable.lookup mn).getD 0)))
        (a, some (w ||| macc))).2 = some (w ||| m') := by
  intro l
  induction l with
  | nil => exact fun _ a w macc h => ⟨macc, h, rfl⟩
  | cons x xs ih =>
    intro hall a w macc h
    have hx : modifierNamesList.contains x = true := hall x (by simp)
    have hxs : ∀ y ∈ xs, modifierNamesList.contains y = true :=
      fun y hy => hall y (by simp [hy])
    have hsx : (SpecifityTable.lookup x).getD 0 < 256 :=
      modSpecBound x (by simpa using hx)
    rw [List.foldl_cons]
    simp only [Option.getD_some, Nat.or_assoc]
    exact ih hxs _ w _ (orLt256 h hsx)

/-- `normalizeModifiers` on a kind weight `w` produces `w ||| m` for some
modifier contribution `m < 256`. -/
theorem normalizeModifiersSpecShape (w : Nat) (ms : Option StrOrStrList)
    (hv : validModifierNames ms = true) :
    ∃ m', m' < 256 ∧ (normalizeModifiers (some w) ms).2 = some (w ||| m') := by
  match ms with
  | none => exact ⟨0, by decide, by simp [normalizeModifiers]⟩
  | some (.str m) =>
    refine ⟨(SpecifityTable.lookup m).getD 0, ?_, by simp [normalizeModifiers]⟩
    exact modSpecBound m (by simpa [validModifierNames] using hv)
  | some (.arr l) =>
    have hall : ∀ x ∈ l, modifierNamesList.contains x = true := by
      simpa [validModifierNames, List.all_eq_true] using hv
    have := foldModSpecShape l hall (some 0) w 0 (by decide)
    rwa [Nat.or_zero] at this

/-- A successfully constructed rule's specificity is its kind weight OR a
modifier-and-filter contribution below `256`. -/
theorem createSpecShape (raw : RawConfig) (w : Nat) (n : NormalizedConfig)
    (hw : SpecifityTable.lookup raw.type = some w)
    (hm : validModifiers raw = true)
    (hok : NormalizedConfig.create raw = .ok n) :
    ∃ m', m' < 256 ∧ n.specifity = some (w ||| m') := by
  obtain ⟨m', hm', hsnd⟩ := normalizeModifiersSpecShape w raw.modifiers hm
  simp only [NormalizedConfig.create, hw] at hok
  rcases hfil : raw.filter with _ | src
  · rw [hfil] at hok
    simp only at hok
    injection hok with h
    exact ⟨m', hm', by rw [← h]; exact hsnd⟩
  · rcases src with t | _
    · rw [hfil] at hok
      simp only at hok
      injection hok with h
      refine ⟨m' ||| Specifity_filter, ?_, ?_⟩
      · exact orLt256 hm' (by decide)
      · rw [← h]
        simp [hsnd, Nat.or_assoc]
    · rw [hfil] at hok
      simp at hok

/-- The `Specifity` weight of every kind name is one of the kind weights. -/
theorem kindSpecMem : ∀ s ∈ kindNamesList, (SpecifityTable.lookup s).getD 0 ∈ kindWeightsList := by
  decide

set_option maxHeartbeats 4000000 in
set_option maxRecDepth 100000 in
/-- ORing any sub-`256` contribution into a kind weight moves it by less than
one kind step, and never below the weight itself. -/
theorem orBoundsKind : ∀ w ∈ kindWeightsList, ∀ m : Fin 256,
    w ≤ w ||| m.1 ∧ w ||| m.1 < w + 256 := by
  decide

/-- Distinct kind weights are at least one kind step (`256`) apart. -/
theorem kindGap : ∀ w1 ∈ kindWeightsList, ∀ w2 ∈ kindWeightsList,
    w2 < w1 → w2 + 256 ≤ w1 := by
  decide

/-- C7: for two rules (well-typed in the sense that their `modifiers` entries
name recognized modifiers) whose kind names carry different kind specificity
weights, the rule with the higher kind weight has the strictly greater total
specificity score, whatever modifiers and filter either rule carries: the OR
of all modifier and filter weights stays below `256`, the smallest kind
weight. -/
theorem C7_kind_weight_dominates :
  ∀ (r1 r2 : RawConfig) (w1 w2 : Nat) (n1 n2 : NormalizedConfig),
    r1.type ∈ kindNamesList → r2.type ∈ kindNamesList →
    SpecifityTable.lookup r1.type = some w1 →
    SpecifityTable.lookup r2.type = some w2 →
    w2 < w1 →
    validModifiers r1 = true → validModifiers r2 = true →
    NormalizedConfig.create r1 = .ok n1 →
    NormalizedConfig.create r2 = .ok n2 →
    n2.specifity.getD 0 < n1.specifity.getD 0 := by
  intro r1 r2 w1 w2 n1 n2 hk1 hk2 hw1 hw2 hlt hv1 hv2 ho1 ho2
  obtain ⟨m1, hm1, hs1⟩ := createSpecShape r1 w1 n1 hw1 hv1 ho1
  obtain ⟨m2, hm2, hs2⟩ := createSpecShape r2 w2 n2 hw2 hv2 ho2
  have hw1mem : w1 ∈ kindWeightsList := by
    have h := kindSpecMem r1.type hk1
    rwa [hw1, Option.getD_some] at h
  have hw2mem : w2 ∈ kindWeightsList := by
    have h := kindSpecMem r2.type hk2
    rwa [hw2, Option.getD_some] at h
  rw [hs1, hs2, Option.getD_some, Option.getD_some]
  have h1 := orBoundsKind w1 hw1mem ⟨m1, hm1⟩
  have h2 := orBoundsKind w2 hw2mem ⟨m2, hm2⟩
  calc w2 ||| m2 < w2 + 256 := h2.2
    _ ≤ w1 := kindGap w1 hw1mem w2 hw2mem hlt
    _ ≤ w1 ||| m1 := h1.1

/-- C7 witness: a bare class rule outranks a variable rule carrying every
modifier weight and a filter. -/
theorem C7_kind_weight_witness :
  ruleC7b.specifity.getD 0 < ruleC7a.specifity.getD 0 :=
  C7_kind_weight_dominates rawC7a rawC7b 2304 512 ruleC7a ruleC7b
    (by decide) (by decide) (by decide) (by decide) (by decide)
    (by decide) (by decide) rfl rfl

/-- The format dispatch returns `undefined` for any unrecognized name. -/
theorem matchesFormatUnknown (fmt : String)
    (h1 : fmt ≠ PASCAL_OPTION) (h2 : fmt ≠ CAMEL_OPTION)
    (h3 : fmt ≠ SNAKE_OPTION) (h4 : fmt ≠ UPPER_OPTION) :
    ∀ s, matchesFormat s fmt = none := by
  intro s
  simp [matchesFormat, h1, h2, h3, h4]

/-- C10 (amended): if the merged contract's case format is any NON-EMPTY
string other than the four recognized names, every checked identifier is
reported with a format violation — the dispatch returns `undefined`, which is
falsy.  (The empty string is the exception the counterexample exhibits: it is
itself falsy, so the whole format check is skipped.) -/
theorem C10_unknown_nonempty_format_always_fails :
  ∀ (fmt : String), fmt ≠ "" →
    fmt ∉ [PASCAL_OPTION, CAMEL_OPTION, SNAKE_OPTION, UPPER_OPTION] →
    ∀ (c : NameChecker), c.format = some (.str fmt) →
    ∀ (identifier : String),
      c.failMessage (FORMAT_FAIL ++ fmt) ∈ c.check identifier := by
  intro fmt h0 h4 c hc identifier
  simp only [List.mem_cons, List.not_mem_nil, or_false, not_or] at h4
  obtain ⟨ha, hb, hcn, hd⟩ := h4
  have hstage : ∀ s, checkFormatStage c s = [c.failMessage (FORMAT_FAIL ++ fmt)] := by
    intro s
    simp [checkFormatStage, hc, h0, matchesFormatUnknown fmt ha hb hcn hd, jsTruthyOB]
  simp only [NameChecker.check]
  refine List.mem_append_right _ ?_
  rw [hstage]
  exact List.mem_singleton_self _

/-- C10 witness: a contract with format "strange-case" flags the identifier
"x". -/
theorem C10_unknown_format_witness :
  checkerC10W.failMessage (FORMAT_FAIL ++ "strange-case") ∈ checkerC10W.check "x" :=
  C10_unknown_nonempty_format_always_fails "strange-case" (by decide) (by decide)
    checkerC10W rfl "x"
